import Mathlib

/-!
Shallow embedding of the thesma-mcp identifier-resolution core:
`src/thesma_mcp/resolver.py` (TickerResolver) and `src/thesma_mcp/client.py`
(ThesmaClient).  Python strings are modelled as Lean `String`; the regex
`^0\d{9}$` is modelled with Python `re.match` semantics (the `$` anchor also
matches just before a single trailing newline); `\d` is modelled as the ASCII
digits, the only ones any claim exercises.  JSON bodies are modelled by an
inductive `Json`; Python exceptions are modelled with `Except`.
-/

namespace ThesmaMcp

/-- JSON values, as produced by `response.json()`. -/
inductive Json where
  | null
  | bool (b : Bool)
  | num (n : Int)
  | str (s : String)
  | arr (elems : List Json)
  | obj (fields : List (String × Json))

/-- Dictionary lookup `d.get(k)` on a JSON object's field list. -/
def jGet (fields : List (String × Json)) (k : String) : Option Json :=
  (fields.find? (fun p => p.1 == k)).map Prod.snd

/-- Python truthiness of a JSON value (`if not data:`). -/
def pyFalsy : Json → Bool
  | .null => true
  | .bool b => !b
  | .num n => n == 0
  | .str s => s.isEmpty
  | .arr l => l.isEmpty
  | .obj f => f.isEmpty

/-- Python `str()` of a JSON value, as used when an extracted `error.message`
value is interpolated into an error string.  Container rendering is
abbreviated: no claim ever renders an array or object message. -/
def pythonStr : Json → String
  | .null => "None"
  | .bool true => "True"
  | .bool false => "False"
  | .num n => toString n
  | .str s => s
  | .arr _ => "[...]"
  | .obj _ => "\x7b...\x7d"

/-- Python `str.upper()` restricted to ASCII (`ticker_or_cik.upper()`). -/
def pyUpper (s : String) : String :=
  String.mk (s.data.map Char.toUpper)

/-- Python `str.lower()` restricted to ASCII (for case-insensitive headers). -/
def pyLower (s : String) : String :=
  String.mk (s.data.map Char.toLower)

/-- Python `str.strip()` restricted to ASCII whitespace. -/
def pyStrip (s : String) : String :=
  String.mk (((s.data.dropWhile Char.isWhitespace).reverse.dropWhile
    Char.isWhitespace).reverse)

/-- Python `s.rstrip(c)` for a single character `c` (`.rstrip("/")`). -/
def pyRstripChar (s : String) (c : Char) : String :=
  String.mk ((s.data.reverse.dropWhile (fun x => x == c)).reverse)

/-- Python `a or b` on strings: `a` when non-empty, else `b`. -/
def pyOrStr (a b : String) : String :=
  if a.isEmpty then b else a

/-- Python `a or b` where `a : str | None`: `b` when `a` is `None` or empty. -/
def pyOrOpt (a : Option String) (b : String) : String :=
  match a with
  | none => b
  | some s => pyOrStr s b

/-- The single domain exception type `ThesmaAPIError` (client.py), carrying
its message. -/
structure ThesmaAPIError where
  message : String
deriving DecidableEq

/-- client.py `DEFAULT_BASE_URL`. -/
def DEFAULT_BASE_URL : String := "https://api.thesma.dev"

/-- The constructed client state: the resolved credential and base URL held by
`ThesmaClient.__init__` (the fixed headers are functions of `apiKey`). -/
structure ThesmaClient where
  apiKey : String
  baseUrl : String
deriving DecidableEq

/-- client.py `ThesmaClient.__init__`.  `env` models `os.environ`.  Returns
the constructed client, or the configuration error raised before any
client object (or network resource) exists. -/
def clientInit (api_key : Option String) (base_url : Option String)
    (env : String → Option String) : Except ThesmaAPIError ThesmaClient :=
  let resolved_key := pyOrOpt api_key ((env "THESMA_API_KEY").getD "")
  if resolved_key.isEmpty || (pyStrip resolved_key).isEmpty then
    .error ⟨"THESMA_API_KEY not set. Get an API key at https://portal.thesma.dev"⟩
  else
    let b := pyRstripChar (pyOrOpt base_url ((env "THESMA_API_URL").getD "")) '/'
    .ok { apiKey := resolved_key, baseUrl := pyOrStr b DEFAULT_BASE_URL }

/-- An HTTP response as the client observes it: status code, headers, and the
result of `response.json()` (`none` models a body that is not valid JSON, so
that `.json()` raises). -/
structure HttpResponse where
  status : Nat
  headers : List (String × String)
  body : Option Json

/-- Outcome of one transport attempt by httpx: a timeout exception, a
connection failure, or a response. -/
inductive HttpResult where
  | timeout
  | connectError
  | response (r : HttpResponse)

/-- How a call can fail: a raised `ThesmaAPIError`, or an untranslated Python
exception (e.g. a JSON decode error on a success-status body). -/
inductive Failure where
  | api (e : ThesmaAPIError)
  | py
deriving DecidableEq

/-- The `try:` block of `_handle_error`: `response.json()` followed by
`body.get("error", \x7b\x7d).get("message", "Unknown error")`.  `.error ()`
models an exception inside the block (invalid JSON, or `.get` on a
non-dictionary). -/
def extractTry (body : Option Json) : Except Unit String :=
  match body with
  | none => .error ()
  | some j =>
    match j with
    | .obj fields =>
      match (jGet fields "error").getD (.obj []) with
      | .obj efields => .ok (pythonStr ((jGet efields "message").getD (.str "Unknown error")))
      | _ => .error ()
    | _ => .error ()

/-- The `api_message` computed by `_handle_error`: the `try:` block's result,
with any exception caught and replaced by "Unknown error". -/
def apiMessage (body : Option Json) : String :=
  match extractTry body with
  | .ok m => m
  | .error _ => "Unknown error"

/-- Whether a nested `error.message` field can be extracted from a response
body at all: the body is a JSON object and its `error` field (defaulting to
the empty object) is an object carrying a `message` key.  In every other
shape the extraction falls back to "Unknown error". -/
def msgExtractable (body : Option Json) : Bool :=
  match body with
  | some (.obj fields) =>
    match (jGet fields "error").getD (.obj []) with
    | .obj efields => (jGet efields "message").isSome
    | _ => false
  | _ => false

/-- The credential guard of `ThesmaClient.__init__`: true when the string is
empty or whitespace-only (`not resolved_key or not resolved_key.strip()`). -/
def pyBlank (s : String) : Bool := s.isEmpty || (pyStrip s).isEmpty

/-- Case-insensitive header lookup `response.headers.get(k, d)` (httpx
headers are case-insensitive). -/
def headersGet (headers : List (String × String)) (k d : String) : String :=
  ((headers.find? (fun p => pyLower p.1 == pyLower k)).map Prod.snd).getD d

/-- client.py `ThesmaClient._handle_error`: translate an HTTP error response
into the `ThesmaAPIError` it raises.  Total: every branch raises. -/
def handleError (r : HttpResponse) : ThesmaAPIError :=
  let api_message := apiMessage r.body
  if r.status == 401 then
    ⟨api_message ++ ". Get a new key at https://portal.thesma.dev"⟩
  else if r.status == 404 then
    ⟨api_message⟩
  else if r.status == 429 then
    let retry_after := headersGet r.headers "Retry-After" "60"
    ⟨"Rate limit exceeded. Try again in " ++ retry_after ++
      " seconds. Upgrade at https://portal.thesma.dev/billing"⟩
  else if r.status ≥ 500 then
    ⟨"Thesma API is temporarily unavailable. Try again in a moment."⟩
  else
    ⟨api_message⟩

/-- client.py `ThesmaClient.get`, given the transport outcome of the single
httpx GET it performs: timeout and connection failures become the
"Cannot reach" `ThesmaAPIError`; an error status is translated by
`_handle_error`; otherwise `response.json()` is returned (raising `.py`,
untranslated, when the body is not JSON). -/
def clientGet (c : ThesmaClient) (outcome : HttpResult) : Except Failure Json :=
  match outcome with
  | .timeout =>
    .error (.api ⟨"Cannot reach Thesma API at " ++ c.baseUrl ++
      ". Check your network connection."⟩)
  | .connectError =>
    .error (.api ⟨"Cannot reach Thesma API at " ++ c.baseUrl ++
      ". Check your network connection."⟩)
  | .response r =>
    if r.status ≥ 400 then
      .error (.api (handleError r))
    else
      match r.body with
      | some j => .ok j
      | none => .error .py

/-- Character list shape of the regex `^0\d{9}$` without end-anchor subtlety:
a `0` followed by exactly nine digits. -/
def cikChars : List Char → Bool
  | [] => false
  | c :: rest => c == '0' && (rest.length == 9 && rest.all Char.isDigit)

/-- The spec's reading of the canonical-identifier pattern `^0\d{9}$`: the
whole string is a `0` followed by nine digits (fixed width 10). -/
def specCik (s : String) : Bool :=
  cikChars s.data

/-- resolver.py `CIK_PATTERN.match(s)` with Python `re` semantics: `$` also
matches just before a single trailing newline at the end of the string. -/
def pyMatchCik (s : String) : Bool :=
  cikChars s.data ||
    (s.data.getLast? == some '\n' && cikChars s.data.dropLast)

/-- The resolver's in-memory cache `self._cache`, newest entry first.  The
source annotates it `dict[str, str]`, but the annotation is not enforced at
runtime: the stored value is whatever `data[0]["cik"]` held, so values are
modelled as `Json`. -/
abbrev Cache := List (String × Json)

/-- Dictionary read: `self._cache[key]` / `key in self._cache`. -/
def cacheGet (cache : Cache) (k : String) : Option Json :=
  (cache.find? (fun p => p.1 == k)).map Prod.snd

/-- The message of the empty-result-set error raised by `resolve`. -/
def noCompanyMsg (t : String) : String :=
  "No company found for ticker \x27" ++ t ++ "\x27. Try searching with search_companies."

/-- Outcome of one `resolve` call: the returned value or raised failure, the
cache after the call, and the number of network calls performed. -/
structure RunResult where
  outcome : Except Failure Json
  cache : Cache
  calls : Nat

/-- resolver.py `TickerResolver.resolve`.  `api` models one
`self._client.get("/v1/us/sec/companies", params=...)` call keyed by the
`ticker` parameter it is given; each `api` invocation is one network call.
Passthrough and cache hits return without calling `api`; an `api` failure
propagates unchanged; an empty (Python-falsy) `data` raises the
no-company `ThesmaAPIError`; otherwise `data[0]["cik"]` is cached and
returned, any shape that would make the subscripts raise becoming `.py`. -/
def resolve (api : String → Except Failure Json) (cache : Cache)
    (ticker_or_cik : String) : RunResult :=
  if pyMatchCik ticker_or_cik then
    ⟨.ok (.str ticker_or_cik), cache, 0⟩
  else
    let cache_key := pyUpper ticker_or_cik
    match cacheGet cache cache_key with
    | some v => ⟨.ok v, cache, 0⟩
    | none =>
      match api cache_key with
      | .error e => ⟨.error e, cache, 1⟩
      | .ok resp =>
        match resp with
        | .obj fields =>
          let data := (jGet fields "data").getD (.arr [])
          if pyFalsy data then
            ⟨.error (.api ⟨noCompanyMsg ticker_or_cik⟩), cache, 1⟩
          else
            match data with
            | .arr (first :: _) =>
              match first with
              | .obj dfields =>
                match jGet dfields "cik" with
                | some cik => ⟨.ok cik, (cache_key, cik) :: cache, 1⟩
                | none => ⟨.error .py, cache, 1⟩
              | _ => ⟨.error .py, cache, 1⟩
            | _ => ⟨.error .py, cache, 1⟩
        | _ => ⟨.error .py, cache, 1⟩

/-! Helper lemmas about the character-level model. -/

/-- An ASCII digit has code point between 48 and 57. -/
theorem toNat_digit {c : Char} (h : c.isDigit = true) : 48 ≤ c.toNat ∧ c.toNat ≤ 57 := by
  simpa [Char.isDigit, Char.toNat] using h

/-- Uppercasing fixes digits and the newline character. -/
theorem toUpper_fix {c : Char} (h : c.isDigit = true ∨ c = '\n') : Char.toUpper c = c := by
  rcases h with h | h
  · have hb := toNat_digit h
    unfold Char.toUpper
    rw [if_neg]
    omega
  · subst h; decide

/-- Only a digit uppercases to that digit; only a newline uppercases to a
newline. -/
theorem toUpper_inv {c d : Char}
    (hup : Char.toUpper c = d) (hd : d.isDigit = true ∨ d = '\n') : c = d := by
  have hdn : d.toNat ≤ 57 := by
    rcases hd with hd | hd
    · have := toNat_digit hd; omega
    · subst hd; decide
  by_cases hc : 97 ≤ c.toNat ∧ c.toNat ≤ 122
  · exfalso
    have : d.toNat = c.toNat - 32 := by
      rw [← hup]
      unfold Char.toUpper
      rw [if_pos hc, Char.ofNat, dif_pos (Or.inl (by omega))]
      rfl
    omega
  · rw [← hup]
    unfold Char.toUpper
    rw [if_neg hc]

/-- Mapping a function that fixes every element of a list is the identity. -/
theorem map_fix {l : List Char} (h : ∀ x ∈ l, Char.toUpper x = x) :
    l.map Char.toUpper = l := by
  induction l with
  | nil => rfl
  | cons a t ih =>
    simp only [List.map_cons]
    rw [h a (by simp), ih (fun x hx => h x (by simp [hx]))]

/-- Every character of a CIK-shaped list is a digit. -/
theorem cikChars_all_digit {l : List Char} (h : cikChars l = true) :
    ∀ x ∈ l, x.isDigit = true := by
  cases l with
  | nil => simp [cikChars] at h
  | cons a t =>
    simp only [cikChars, Bool.and_eq_true, beq_iff_eq] at h
    intro x hx
    rcases List.mem_cons.mp hx with hx | hx
    · subst hx; rw [h.1]; decide
    · exact List.all_eq_true.mp h.2.2 x hx

/-- A list whose uppercased image is CIK-shaped is fixed by uppercasing. -/
theorem cikChars_map {l : List Char} (h : cikChars (l.map Char.toUpper) = true) :
    l.map Char.toUpper = l := by
  apply map_fix
  intro x hx
  exact (toUpper_inv rfl (Or.inl (cikChars_all_digit h _ (List.mem_map_of_mem _ hx)))).symm

/-- Rebuilding a string from its character list is the identity. -/
theorem string_mk_data (s : String) : String.mk s.data = s := by
  cases s; rfl

/-- A string the pattern accepts is fixed by uppercasing (its characters are
digits, or digits plus a final newline). -/
theorem pyUpper_eq_self_of_match {s : String} (h : pyMatchCik s = true) :
    pyUpper s = s := by
  rw [pyMatchCik, Bool.or_eq_true] at h
  have hfix : ∀ x ∈ s.data, Char.toUpper x = x := by
    rcases h with h | h
    · intro x hx
      exact toUpper_fix (Or.inl (cikChars_all_digit h _ hx))
    · rw [Bool.and_eq_true, beq_iff_eq] at h
      obtain ⟨hlast, hdrop⟩ := h
      intro x hx
      have hne : s.data ≠ [] := by
        intro he; rw [he] at hlast; simp at hlast
      have hdec : s.data = s.data.dropLast ++ [s.data.getLast hne] :=
        (List.dropLast_append_getLast hne).symm
      rw [hdec] at hx
      rcases List.mem_append.mp hx with hx | hx
      · exact toUpper_fix (Or.inl (cikChars_all_digit hdrop _ hx))
      · have : x = '\n' := by
          have := List.getLast?_eq_getLast s.data hne
          rw [hlast] at this
          simp only [List.mem_singleton] at hx
          rw [hx]
          exact (Option.some.inj this.symm)
        exact toUpper_fix (Or.inr this)
  rw [pyUpper, map_fix hfix, string_mk_data]

/-- If the uppercased form of a string matches the pattern, so does the
string itself. -/
theorem pyMatch_of_pyUpper {s : String} (h : pyMatchCik (pyUpper s) = true) :
    pyMatchCik s = true := by
  have hdata : (pyUpper s).data = s.data.map Char.toUpper := rfl
  rw [pyMatchCik, Bool.or_eq_true] at h ⊢
  rcases h with h | h
  · rw [hdata] at h
    rw [cikChars_map h] at h
    exact Or.inl h
  · rw [Bool.and_eq_true, beq_iff_eq] at h
    obtain ⟨hlast, hdrop⟩ := h
    rw [hdata, List.getLast?_map] at hlast
    rw [hdata, ← List.map_dropLast] at hdrop
    right
    rw [Bool.and_eq_true, beq_iff_eq]
    constructor
    · cases hl : s.data.getLast? with
      | none => rw [hl] at hlast; simp at hlast
      | some c =>
        rw [hl] at hlast
        simp only [Option.map_some', Option.some.injEq] at hlast
        exact congrArg some (toUpper_inv hlast (Or.inr rfl))
    · rw [cikChars_map hdrop] at hdrop
      exact hdrop

/-- A case-variant (equal uppercased form) of a non-matching string does not
match the pattern either. -/
theorem pyMatch_transfer {T T2 : String} (hm : pyMatchCik T = false)
    (hu : pyUpper T2 = pyUpper T) : pyMatchCik T2 = false := by
  by_contra hne
  have h2 : pyMatchCik T2 = true := by
    cases h : pyMatchCik T2
    · exact absurd h hne
    · rfl
  have hfix := pyUpper_eq_self_of_match h2
  rw [hfix] at hu
  have : pyMatchCik (pyUpper T) = true := by rw [← hu]; exact h2
  rw [pyMatch_of_pyUpper this] at hm
  exact Bool.noConfusion hm

/-! Branch characterizations of `resolve`. -/

/-- Passthrough branch: a pattern-matching input is returned as-is. -/
theorem resolve_match_eq (api : String → Except Failure Json) (cache : Cache)
    {t : String} (h : pyMatchCik t = true) :
    resolve api cache t = ⟨.ok (.str t), cache, 0⟩ := by
  simp [resolve, h]

/-- Cache-hit branch: the cached value is returned with no network call. -/
theorem resolve_hit_eq (api : String → Except Failure Json) {cache : Cache}
    {t : String} {v : Json} (hm : pyMatchCik t = false)
    (hv : cacheGet cache (pyUpper t) = some v) :
    resolve api cache t = ⟨.ok v, cache, 0⟩ := by
  simp [resolve, hm, hv]

/-- Lookup-failure branch: a client error propagates unchanged and the cache
is untouched. -/
theorem resolve_api_error_eq {api : String → Except Failure Json} {cache : Cache}
    {t : String} {e : Failure} (hm : pyMatchCik t = false)
    (hc : cacheGet cache (pyUpper t) = none)
    (he : api (pyUpper t) = .error e) :
    resolve api cache t = ⟨.error e, cache, 1⟩ := by
  simp [resolve, hm, hc, he]

/-- Empty-result branch: a response whose `data` is the empty array raises
the no-company error and leaves the cache untouched. -/
theorem resolve_empty_eq {api : String → Except Failure Json} {cache : Cache}
    {t : String} {fields : List (String × Json)} (hm : pyMatchCik t = false)
    (hc : cacheGet cache (pyUpper t) = none)
    (happi : api (pyUpper t) = .ok (.obj fields))
    (hdata : (jGet fields "data").getD (.arr []) = .arr []) :
    resolve api cache t = ⟨.error (.api ⟨noCompanyMsg t⟩), cache, 1⟩ := by
  simp [resolve, hm, hc, happi, hdata, pyFalsy]

/-- On a cache miss for a non-matching input, exactly one network call is
performed, whatever the lookup returns. -/
theorem resolve_miss_calls (api : String → Except Failure Json) {cache : Cache}
    {t : String} (hm : pyMatchCik t = false)
    (hc : cacheGet cache (pyUpper t) = none) :
    (resolve api cache t).calls = 1 := by
  rw [resolve]
  simp only [hm, Bool.false_eq_true, if_false, hc]
  cases happi : api (pyUpper t) with
  | error e => rfl
  | ok resp =>
    cases resp with
    | obj fields =>
      simp only []
      split
      · rfl
      · split <;> try rfl
        split <;> try rfl
        split <;> rfl
    | null => rfl
    | bool b => rfl
    | num n => rfl
    | str s => rfl
    | arr l => rfl

/-- Inversion: when `resolve` fails, the input did not match the pattern, the
key was not cached, the cache is returned unchanged, one network call was
made, and a client error is propagated verbatim. -/
theorem resolve_error_inv {api : String → Except Failure Json} {cache : Cache}
    {t : String} {f : Failure} {cache1 : Cache} {n : Nat}
    (h : resolve api cache t = ⟨.error f, cache1, n⟩) :
    pyMatchCik t = false ∧ cacheGet cache (pyUpper t) = none ∧
    cache1 = cache ∧ n = 1 ∧ (∀ e, api (pyUpper t) = .error e → f = e) := by
  by_cases hm : pyMatchCik t = true
  · rw [resolve_match_eq api cache hm] at h
    simp at h
  · have hm' : pyMatchCik t = false := by
      cases hmm : pyMatchCik t
      · rfl
      · exact absurd hmm hm
    cases hv : cacheGet cache (pyUpper t) with
    | some v =>
      rw [resolve_hit_eq api hm' hv] at h
      simp at h
    | none =>
      refine ⟨hm', rfl, ?_⟩
      rw [resolve] at h
      simp only [hm', Bool.false_eq_true, if_false, hv] at h
      cases happi : api (pyUpper t) with
      | error e =>
        rw [happi] at h
        simp only [RunResult.mk.injEq, Except.error.injEq] at h
        obtain ⟨h1, h2, h3⟩ := h
        exact ⟨h2.symm, h3.symm, fun e2 he2 => h1 ▸ (Except.error.inj he2)⟩
      | ok resp =>
        rw [happi] at h
        cases resp with
        | obj fields =>
          simp only [] at h
          split at h
          · simp only [RunResult.mk.injEq] at h
            exact ⟨h.2.1.symm, h.2.2.symm, fun e2 he2 => absurd he2 (by simp)⟩
          · split at h
            · split at h
              · split at h
                · simp at h
                · simp only [RunResult.mk.injEq] at h
                  exact ⟨h.2.1.symm, h.2.2.symm, fun e2 he2 => absurd he2 (by simp)⟩
              · simp only [RunResult.mk.injEq] at h
                exact ⟨h.2.1.symm, h.2.2.symm, fun e2 he2 => absurd he2 (by simp)⟩
            · simp only [RunResult.mk.injEq] at h
              exact ⟨h.2.1.symm, h.2.2.symm, fun e2 he2 => absurd he2 (by simp)⟩
        | null =>
          simp only [RunResult.mk.injEq] at h
          exact ⟨h.2.1.symm, h.2.2.symm, fun e2 he2 => absurd he2 (by simp)⟩
        | bool b =>
          simp only [RunResult.mk.injEq] at h
          exact ⟨h.2.1.symm, h.2.2.symm, fun e2 he2 => absurd he2 (by simp)⟩
        | num nn =>
          simp only [RunResult.mk.injEq] at h
          exact ⟨h.2.1.symm, h.2.2.symm, fun e2 he2 => absurd he2 (by simp)⟩
        | str s =>
          simp only [RunResult.mk.injEq] at h
          exact ⟨h.2.1.symm, h.2.2.symm, fun e2 he2 => absurd he2 (by simp)⟩
        | arr l =>
          simp only [RunResult.mk.injEq] at h
          exact ⟨h.2.1.symm, h.2.2.symm, fun e2 he2 => absurd he2 (by simp)⟩

/-- Inversion: a successful resolution from a cache miss can only come from
the lookup branch, which stores exactly the returned value under the
uppercased key and made one network call. -/
theorem resolve_ok_miss_inv {api : String → Except Failure Json} {cache : Cache}
    {t : String} {c : Json} {cache1 : Cache} {n : Nat}
    (hm : pyMatchCik t = false) (hc : cacheGet cache (pyUpper t) = none)
    (h : resolve api cache t = ⟨.ok c, cache1, n⟩) :
    cache1 = (pyUpper t, c) :: cache ∧ n = 1 := by
  rw [resolve] at h
  simp only [hm, Bool.false_eq_true, if_false, hc] at h
  cases happi : api (pyUpper t) with
  | error e => rw [happi] at h; simp at h
  | ok resp =>
    rw [happi] at h
    cases resp with
    | obj fields =>
      simp only [] at h
      split at h
      · simp at h
      · split at h
        · split at h
          · split at h
            · simp only [RunResult.mk.injEq, Except.ok.injEq] at h
              obtain ⟨h1, h2, h3⟩ := h
              subst h1
              exact ⟨h2.symm, h3.symm⟩
            · simp at h
          · simp at h
        · simp at h
    | null => simp at h
    | bool b => simp at h
    | num nn => simp at h
    | str s => simp at h
    | arr l => simp at h

/-- A string in the spec's strict pattern reading is also accepted by the
Python match. -/
theorem pyMatch_of_specCik {s : String} (h : specCik s = true) :
    pyMatchCik s = true := by
  rw [pyMatchCik, Bool.or_eq_true]
  exact Or.inl h

/-! Claim theorems. -/

/-- C1: every input accepted by the canonical-identifier pattern is returned
unchanged by `resolve`, with zero network calls and the cache untouched —
for any cache contents and any network behaviour, so the call neither reads
nor writes the cache. -/
theorem resolve_passthrough_identity (api : String → Except Failure Json)
    (cache : Cache) (t : String) (h : pyMatchCik t = true) :
    resolve api cache t = ⟨.ok (.str t), cache, 0⟩ :=
  resolve_match_eq api cache h

/-- Witness for C1 at the canonical identifier "0000320193", a failing
network and a non-empty cache. -/
theorem resolve_passthrough_identity_witness :
    pyMatchCik "0000320193" = true ∧
    resolve (fun _ => .error .py) [("X", Json.str "y")] "0000320193" =
      ⟨.ok (.str "0000320193"), [("X", Json.str "y")], 0⟩ :=
  ⟨by decide, resolve_passthrough_identity _ _ _ (by decide)⟩

/-- C2: for a non-matching, uncached input the first `resolve` performs
exactly one network call, and if it succeeds with identifier `c`, a later
`resolve` of any case-variant performs zero network calls and returns the
same `c`, whatever the network would now answer. -/
theorem resolve_one_call_case_variant_cached (api : String → Except Failure Json)
    (cache : Cache) (T : String)
    (hm : pyMatchCik T = false)
    (hc : cacheGet cache (pyUpper T) = none) :
    (resolve api cache T).calls = 1 ∧
    ∀ c cache1 n T2 api2,
      resolve api cache T = ⟨.ok c, cache1, n⟩ →
      pyUpper T2 = pyUpper T →
      resolve api2 cache1 T2 = ⟨.ok c, cache1, 0⟩ := by
  refine ⟨resolve_miss_calls api hm hc, ?_⟩
  intro c cache1 n T2 api2 h hup
  obtain ⟨hc1, hn⟩ := resolve_ok_miss_inv hm hc h
  have hm2 : pyMatchCik T2 = false := pyMatch_transfer hm hup
  have hv : cacheGet cache1 (pyUpper T2) = some c := by
    rw [hc1, hup, cacheGet]
    simp [List.find?]
  exact resolve_hit_eq api2 hm2 hv

/-- Witness for C2: "aapl" resolved once over the network, then "AaPl"
served from the cache even against a failing network. -/
theorem resolve_one_call_case_variant_cached_witness :
    pyMatchCik "aapl" = false ∧
    cacheGet [] (pyUpper "aapl") = none ∧
    (resolve (fun _ => .ok (.obj [("data", .arr [.obj [("cik", .str "0000320193")]])]))
      [] "aapl").calls = 1 ∧
    resolve (fun _ => .error .py) [("AAPL", Json.str "0000320193")] "AaPl" =
      ⟨.ok (.str "0000320193"), [("AAPL", Json.str "0000320193")], 0⟩ := by
  have h := resolve_one_call_case_variant_cached
    (fun _ => .ok (.obj [("data", .arr [.obj [("cik", .str "0000320193")]])]))
    [] "aapl" (by decide) rfl
  exact ⟨by decide, rfl, h.1,
    h.2 (.str "0000320193") [("AAPL", Json.str "0000320193")] 1 "AaPl"
      (fun _ => .error .py) rfl (by decide)⟩

/-- C3: whenever `resolve` fails, the cache is returned exactly as it was,
one network call was made, a client error is propagated unchanged (not
wrapped), and a later call with the same ticker re-issues the network
lookup (one call again, under any network behaviour). -/
theorem resolve_failure_leaves_cache (api api2 : String → Except Failure Json)
    (cache : Cache) (t : String) (f : Failure) (cache1 : Cache) (n : Nat)
    (h : resolve api cache t = ⟨.error f, cache1, n⟩) :
    cache1 = cache ∧ n = 1 ∧
    (∀ e, api (pyUpper t) = .error e → f = e) ∧
    (resolve api2 cache t).calls = 1 := by
  obtain ⟨hm, hc, h1, h2, h3⟩ := resolve_error_inv h
  exact ⟨h1, h2, h3, resolve_miss_calls api2 hm hc⟩

/-- Witness for C3: "zzzz" failing with an empty result set leaves the empty
cache empty, and a retry against any network makes one call. -/
theorem resolve_failure_leaves_cache_witness :
    ([] : Cache) = [] ∧ (1 : Nat) = 1 ∧
    (∀ e, (fun _ : String => (Except.ok (Json.obj [("data", Json.arr [])]) : Except Failure Json))
        (pyUpper "zzzz") = .error e → Failure.api ⟨noCompanyMsg "zzzz"⟩ = e) ∧
    (resolve (fun _ => .error .py) [] "zzzz").calls = 1 :=
  resolve_failure_leaves_cache
    (fun _ => .ok (.obj [("data", .arr [])])) (fun _ => .error .py)
    [] "zzzz" (.api ⟨noCompanyMsg "zzzz"⟩) [] 1 rfl

/-- C4 counterexample: `resolve` returns the eleven-character input
"0123456789\n" unchanged, a value that does not match `^0\d{9}$` in the
spec's fixed-width reading, so not every returned value is a canonical
identifier. -/
theorem resolve_nonCanonical_return :
    resolve (fun _ => .error .py) [] "0123456789\n" =
      ⟨.ok (.str "0123456789\n"), [], 0⟩ ∧
    specCik "0123456789\n" = false :=
  ⟨rfl, by decide⟩

/-- C4 amended: provided every cached value and every `cik` value the lookup
endpoint returns matches `^0\d{9}$`, every value `resolve` returns is a
string accepted by the code's pattern match — that is, `^0\d{9}$` up to an
optional single trailing newline admitted by the passthrough branch. -/
theorem resolve_result_canonical (api : String → Except Failure Json)
    (cache : Cache) (t : String) (c : Json) (cache1 : Cache) (n : Nat)
    (hcache : ∀ k v, cacheGet cache k = some v →
      ∃ s, v = .str s ∧ specCik s = true)
    (hapi : ∀ k fields first rest dfields v,
      api k = .ok (.obj fields) →
      (jGet fields "data").getD (.arr []) = .arr (first :: rest) →
      first = .obj dfields →
      jGet dfields "cik" = some v →
      ∃ s, v = .str s ∧ specCik s = true)
    (h : resolve api cache t = ⟨.ok c, cache1, n⟩) :
    ∃ s, c = .str s ∧ pyMatchCik s = true := by
  by_cases hm : pyMatchCik t = true
  · rw [resolve_match_eq api cache hm] at h
    simp only [RunResult.mk.injEq, Except.ok.injEq] at h
    exact ⟨t, h.1.symm, hm⟩
  · have hm' : pyMatchCik t = false := by
      cases hmm : pyMatchCik t
      · rfl
      · exact absurd hmm hm
    cases hv : cacheGet cache (pyUpper t) with
    | some v =>
      rw [resolve_hit_eq api hm' hv] at h
      simp only [RunResult.mk.injEq, Except.ok.injEq] at h
      obtain ⟨s, hs, hspec⟩ := hcache _ _ hv
      exact ⟨s, h.1 ▸ hs, pyMatch_of_specCik hspec⟩
    | none =>
      rw [resolve] at h
      simp only [hm', Bool.false_eq_true, if_false, hv] at h
      cases happi : api (pyUpper t) with
      | error e => rw [happi] at h; simp at h
      | ok resp =>
        rw [happi] at h
        cases resp with
        | obj fields =>
          simp only [] at h
          split at h
          · simp at h
          · split at h
            · split at h
              · split at h
                · rename_i data0 tail0 x1 efields heq1 x0 cik heq2
                  simp only [RunResult.mk.injEq, Except.ok.injEq] at h
                  obtain ⟨s, hs, hspec⟩ :=
                    hapi (pyUpper t) fields (.obj efields) tail0 efields cik happi heq1 rfl heq2
                  exact ⟨s, h.1 ▸ hs, pyMatch_of_specCik hspec⟩
                · simp at h
              · simp at h
            · simp at h
        | null => simp at h
        | bool b => simp at h
        | num nn => simp at h
        | str s => simp at h
        | arr l => simp at h

/-- Witness for the amended C4: a canonical-returning network on "msft"
yields a value accepted by the pattern. -/
theorem resolve_result_canonical_witness :
    ∃ s, Json.str "0000320193" = Json.str s ∧ pyMatchCik s = true := by
  refine resolve_result_canonical
    (fun _ => .ok (.obj [("data", .arr [.obj [("cik", .str "0000320193")]])]))
    [] "msft" (.str "0000320193") [("MSFT", .str "0000320193")] 1
    ?_ ?_ rfl
  · intro k v hv
    simp [cacheGet] at hv
  · intro k fields first rest dfields v h1 h2 h3 h4
    simp only [Except.ok.injEq, Json.obj.injEq] at h1
    subst h1
    have h2' : Json.arr [Json.obj [("cik", Json.str "0000320193")]] =
        Json.arr (first :: rest) := h2
    simp only [Json.arr.injEq, List.cons.injEq] at h2'
    obtain ⟨hX, hrest⟩ := h2'
    subst hX
    simp only [Json.obj.injEq] at h3
    subst h3
    have h4' : some (Json.str "0000320193") = some v := h4
    exact ⟨"0000320193", (Option.some.inj h4').symm, by decide⟩

/-- C5: for every response with status at least 400 and any body shape, the
`get` pipeline returns the domain error built by `_handle_error` (never a
success and never an untranslated exception), and whenever no nested
`error.message` can be extracted the extracted message falls back to the
literal "Unknown error". -/
theorem handle_error_domain_error_and_fallback (c : ThesmaClient)
    (r : HttpResponse) (h : 400 ≤ r.status) :
    clientGet c (.response r) = .error (.api (handleError r)) ∧
    (msgExtractable r.body = false → apiMessage r.body = "Unknown error") := by
  constructor
  · rw [clientGet, if_pos h]
  · intro hext
    rw [apiMessage]
    cases hb : r.body with
    | none => rfl
    | some j =>
      rw [hb] at hext
      cases j with
      | obj fields =>
        cases he : (jGet fields "error").getD (.obj []) with
        | obj efields =>
          cases hmm : jGet efields "message" with
          | none =>
            rw [extractTry]
            simp only [he, hmm]
            rfl
          | some m =>
            exfalso
            simp [msgExtractable, he, hmm] at hext
        | null => rw [extractTry]; simp only [he]
        | bool b => rw [extractTry]; simp only [he]
        | num nn => rw [extractTry]; simp only [he]
        | str s => rw [extractTry]; simp only [he]
        | arr l => rw [extractTry]; simp only [he]
      | null => rfl
      | bool b => rfl
      | num nn => rfl
      | str s => rfl
      | arr l => rfl

/-- Witness for C5 at a 404 response whose body is a JSON array. -/
theorem handle_error_domain_error_and_fallback_witness :
    clientGet ⟨"key", "https://api.thesma.dev"⟩ (.response ⟨404, [], some (.arr [])⟩) =
      .error (.api (handleError ⟨404, [], some (.arr [])⟩)) ∧
    (msgExtractable (some (.arr [])) = false →
      apiMessage (some (.arr [])) = "Unknown error") :=
  handle_error_domain_error_and_fallback ⟨"key", "https://api.thesma.dev"⟩
    ⟨404, [], some (.arr [])⟩ (by decide)

/-- C6: an empty result set makes `resolve` fail with the no-company domain
error, whose message contains the original non-normalized input and the
suggestion to use the broader search_companies tool, with the cache left
unchanged. -/
theorem resolve_empty_result_message (api : String → Except Failure Json)
    (cache : Cache) (t : String) (fields : List (String × Json))
    (hm : pyMatchCik t = false)
    (hc : cacheGet cache (pyUpper t) = none)
    (happi : api (pyUpper t) = .ok (.obj fields))
    (hdata : (jGet fields "data").getD (.arr []) = .arr []) :
    resolve api cache t = ⟨.error (.api ⟨noCompanyMsg t⟩), cache, 1⟩ ∧
    (∃ a b, noCompanyMsg t = a ++ t ++ b) ∧
    (∃ a b, noCompanyMsg t = a ++ "search_companies" ++ b) := by
  refine ⟨resolve_empty_eq hm hc happi hdata,
    ⟨"No company found for ticker \x27",
     "\x27. Try searching with search_companies.", rfl⟩,
    ⟨"No company found for ticker \x27" ++ t ++ "\x27. Try searching with ",
     ".", ?_⟩⟩
  rw [noCompanyMsg]
  rw [String.append_assoc ("No company found for ticker \x27" ++ t ++ "\x27. Try searching with ") "search_companies" "."]
  rw [String.append_assoc ("No company found for ticker \x27" ++ t) "\x27. Try searching with " ("search_companies" ++ ".")]
  rfl

/-- Witness for C6: the mixed-case ticker "zZzz" whose lookup returns an
empty data array. -/
theorem resolve_empty_result_message_witness :
    resolve (fun _ => .ok (.obj [("data", .arr [])])) [] "zZzz" =
      ⟨.error (.api ⟨noCompanyMsg "zZzz"⟩), [], 1⟩ ∧
    (∃ a b, noCompanyMsg "zZzz" = a ++ "zZzz" ++ b) ∧
    (∃ a b, noCompanyMsg "zZzz" = a ++ "search_companies" ++ b) :=
  resolve_empty_result_message (fun _ => .ok (.obj [("data", .arr [])])) [] "zZzz"
    [("data", .arr [])] (by decide) rfl rfl rfl

/-- C7: a transport timeout or connection failure in `get` is translated to
the domain error whose message contains "Cannot reach" and the configured
base URL, for every client configuration. -/
theorem client_get_unreachable_message (c : ThesmaClient) :
    clientGet c .timeout = .error (.api ⟨"Cannot reach Thesma API at " ++
      c.baseUrl ++ ". Check your network connection."⟩) ∧
    clientGet c .connectError = .error (.api ⟨"Cannot reach Thesma API at " ++
      c.baseUrl ++ ". Check your network connection."⟩) ∧
    (∃ a b, "Cannot reach Thesma API at " ++ c.baseUrl ++
      ". Check your network connection." = a ++ "Cannot reach" ++ b) ∧
    (∃ a b, "Cannot reach Thesma API at " ++ c.baseUrl ++
      ". Check your network connection." = a ++ c.baseUrl ++ b) := by
  refine ⟨rfl, rfl,
    ⟨"", " Thesma API at " ++ c.baseUrl ++ ". Check your network connection.", ?_⟩,
    ⟨"Cannot reach Thesma API at ", ". Check your network connection.", rfl⟩⟩
  have h1 : "Cannot reach Thesma API at " = "Cannot reach" ++ " Thesma API at " := rfl
  rw [h1]
  rw [String.append_assoc "Cannot reach" " Thesma API at " c.baseUrl]
  rw [String.append_assoc "Cannot reach" (" Thesma API at " ++ c.baseUrl)
    ". Check your network connection."]
  rfl

/-- C8: when the explicit credential is absent or blank and the environment
credential is blank, construction fails with the configuration error, whose
message points at the portal where a credential can be obtained; no client
value is produced (the constructor in the model takes no network effect at
all). -/
theorem client_init_blank_credential_fails (api_key base_url : Option String)
    (env : String → Option String)
    (hk : api_key = none ∨ ∃ s, api_key = some s ∧ pyBlank s = true)
    (he : pyBlank ((env "THESMA_API_KEY").getD "") = true) :
    clientInit api_key base_url env =
      .error ⟨"THESMA_API_KEY not set. Get an API key at https://portal.thesma.dev"⟩ ∧
    (∃ a b, "THESMA_API_KEY not set. Get an API key at https://portal.thesma.dev" =
      a ++ "https://portal.thesma.dev" ++ b) := by
  rw [pyBlank] at he
  constructor
  · rcases hk with hk | ⟨s, hk, hbs⟩
    · subst hk
      rw [clientInit]
      simp only [pyOrOpt]
      rw [if_pos he]
    · subst hk
      rw [pyBlank] at hbs
      rw [clientInit]
      simp only [pyOrOpt]
      by_cases hse : s.isEmpty = true
      · have hpo : pyOrStr s ((env "THESMA_API_KEY").getD "") =
            (env "THESMA_API_KEY").getD "" := by
          rw [pyOrStr, if_pos hse]
        rw [hpo, if_pos he]
      · have hse' : s.isEmpty = false := by
          cases hx : s.isEmpty
          · rfl
          · exact absurd hx hse
        have hpo : pyOrStr s ((env "THESMA_API_KEY").getD "") = s := by
          rw [pyOrStr, hse']
          simp
        rw [hpo, if_pos hbs]
  · refine ⟨"THESMA_API_KEY not set. Get an API key at ", "", ?_⟩
    rw [String.append_empty]
    rfl

/-- Witness for C8: a whitespace-only explicit key and an unset environment
variable. -/
theorem client_init_blank_credential_fails_witness :
    clientInit (some " ") none (fun _ => none) =
      .error ⟨"THESMA_API_KEY not set. Get an API key at https://portal.thesma.dev"⟩ ∧
    (∃ a b, "THESMA_API_KEY not set. Get an API key at https://portal.thesma.dev" =
      a ++ "https://portal.thesma.dev" ++ b) :=
  client_init_blank_credential_fails (some " ") none (fun _ => none)
    (Or.inr ⟨" ", rfl, by decide⟩) (by decide)

/-- C10: an explicitly supplied empty-string credential falls back to the
environment variable, so construction succeeds and uses the environment key,
while a whitespace-only non-empty explicit key makes construction fail even
with a valid environment key. -/
theorem client_init_empty_key_env_fallback (base_url : Option String)
    (env : String → Option String) (k : String)
    (henv : env "THESMA_API_KEY" = some k)
    (hk : (pyStrip k).isEmpty = false) :
    (∃ c, clientInit (some "") base_url env = .ok c ∧ c.apiKey = k) ∧
    clientInit (some " ") base_url env =
      .error ⟨"THESMA_API_KEY not set. Get an API key at https://portal.thesma.dev"⟩ := by
  have hke : k.isEmpty = false := by
    cases hki : k.isEmpty
    · rfl
    · exfalso
      have hkk : k = "" := (String.isEmpty_iff k).mp hki
      rw [hkk] at hk
      have : (pyStrip "").isEmpty = true := rfl
      rw [this] at hk
      exact Bool.noConfusion hk
  constructor
  · have hres : pyOrOpt (some "") ((env "THESMA_API_KEY").getD "") = k := by
      rw [henv]
      show pyOrStr "" ((some k).getD "") = k
      rw [pyOrStr, if_pos (by decide)]
      rfl
    refine ⟨(⟨k, pyOrStr (pyRstripChar (pyOrOpt base_url ((env "THESMA_API_URL").getD "")) '/') DEFAULT_BASE_URL⟩ : ThesmaClient), ?_, rfl⟩
    rw [clientInit]
    simp only [hres]
    rw [if_neg (by rw [hke, hk]; exact Bool.false_ne_true)]
  · have hres2 : pyOrOpt (some " ") ((env "THESMA_API_KEY").getD "") = " " := by
      show pyOrStr " " ((env "THESMA_API_KEY").getD "") = " "
      rw [pyOrStr, if_neg (by decide)]
    rw [clientInit]
    simp only [hres2]
    rw [if_pos (by decide)]

/-- Witness for C10: empty explicit key with the environment holding "KEY"
succeeds with that key; a single-space explicit key fails. -/
theorem client_init_empty_key_env_fallback_witness :
    (∃ c, clientInit (some "")
        none (fun v => if v == "THESMA_API_KEY" then some "KEY" else none) = .ok c ∧
      c.apiKey = "KEY") ∧
    clientInit (some " ")
        none (fun v => if v == "THESMA_API_KEY" then some "KEY" else none) =
      .error ⟨"THESMA_API_KEY not set. Get an API key at https://portal.thesma.dev"⟩ :=
  client_init_empty_key_env_fallback none
    (fun v => if v == "THESMA_API_KEY" then some "KEY" else none) "KEY" rfl (by decide)

/-- C9: the eleven-character string of "0" plus nine digits plus a trailing
newline is not a fixed-width canonical identifier, yet the code's pattern
match accepts it (Python end-anchor semantics), so `resolve` returns it
unchanged with no cache interaction and no network call. -/
theorem resolve_trailing_newline_passthrough (api : String → Except Failure Json)
    (cache : Cache) :
    specCik "0123456789\n" = false ∧
    String.length "0123456789\n" = 11 ∧
    pyMatchCik "0123456789\n" = true ∧
    resolve api cache "0123456789\n" = ⟨.ok (.str "0123456789\n"), cache, 0⟩ :=
  ⟨by decide, by decide, by decide, resolve_match_eq api cache (by decide)⟩

end ThesmaMcp
